import Mathlib

/-!
Shallow embedding of the FUSE range-copy operation
(weed/mount/weedfs_file_copy_range.go, WFS.CopyFileRange) of the
client-side mount layer, together with models of the collaborators the
operation uses (handle registry, chunk-store read, dirty-page overlay,
writer-pattern monitor, MIME sniffer).  Machine integers are modelled as
Nat with explicit reduction mod 2^64 / 2^32 at the points where the Go
code's unsigned arithmetic can wrap.  The effect of one call is modelled
as a pure function from the pre-state to the returned status, the byte
count, the updated destination handle, and the ordered list of
registry/lock events the call performs; a nil-pointer dereference is
modelled as the result none.
-/

namespace SW

abbrev Byte := Nat

def U64 : Nat := 2 ^ 64

def U32 : Nat := 2 ^ 32

/-- FUSE status values that CopyFileRange can return. -/
inductive Status where
  | OK
  | EINVAL
  | EBADF
  | ENOENT
  | EISDIR
  | EIO
  deriving DecidableEq

/-- Registry and lock events emitted, in order, by one CopyFileRange call.
Lock events carry the reference identity (the pointer) of the handle they
act on, so that locking the same handle object twice is observable. -/
inductive Event where
  | resolve (id : Nat)
  | lockHandle (ref : Nat)
  | lockEntry (ref : Nat)
  | unlockEntry (ref : Nat)
  | unlockHandle (ref : Nat)
  | lockForRead (ref : Nat)
  | unlockForRead (ref : Nat)
  deriving DecidableEq

/-- File attributes as used by the copy path (filer_pb.FuseAttributes). -/
structure FuseAttributes where
  FileSize : Nat
  deriving DecidableEq

/-- Per-object metadata (filer_pb.Entry): directory flag, attributes, and the
optional cached whole-object content. -/
structure Entry where
  IsDirectory : Bool
  Attributes : FuseAttributes
  Content : Option (List Byte)
  deriving DecidableEq

/-- Modelled from the spec: WriterPatternMonitor (spec sections 3 and 4.3), the
rolling sequential/random write classifier, which is absent from src/.  A
contiguous continuation of the previous write extends the streak and a jump
resets it; the classification never affects data correctness. -/
structure WriterPattern where
  lastOffset : Nat
  lastLength : Nat
  streak : Nat
  deriving DecidableEq

/-- Modelled from the spec: MonitorWriteAt updates the rolling streak state
from the new write's offset relative to the previous one. -/
def WriterPattern.MonitorWriteAt (wp : WriterPattern) (offset : Nat) (size : Nat) :
    WriterPattern :=
  if wp.lastOffset + wp.lastLength = offset then
    { lastOffset := offset, lastLength := size, streak := wp.streak + 1 }
  else
    { lastOffset := offset, lastLength := size, streak := 0 }

/-- Modelled from the spec: the current sequential/random classification. -/
def WriterPattern.IsSequentialMode (wp : WriterPattern) : Bool :=
  wp.streak ≥ 1

/-- One buffered-but-uncommitted byte range. -/
structure DirtyPage where
  offset : Nat
  data : List Byte
  deriving DecidableEq

/-- Modelled from the spec: DirtyPageBuffer (spec sections 3 and 4.2), the
in-memory overlay of not-yet-flushed writes of one handle; the pattern
monitor lives inside it as in the code (fhOut.dirtyPages.writerPattern).
Pages are kept most-recent-first so that the most recent write wins for
every offset it covers. -/
structure DirtyPages where
  pages : List DirtyPage
  writerPattern : WriterPattern
  deriving DecidableEq

/-- Modelled from the spec: AddPage inserts a byte range into the buffer; the
sequential hint only tunes flush granularity and never affects the value
subsequent reads observe, so the model records the page as written. -/
def DirtyPages.AddPage (dp : DirtyPages) (offset : Nat) (data : List Byte)
    (hint : Bool) : DirtyPages :=
  let _ := hint
  { dp with pages := { offset := offset, data := data } :: dp.pages }

/-- The dirty-overlay value at absolute offset p: the most recently written
byte among all buffered ranges covering p, if any. -/
def DirtyPages.byteAt (dp : DirtyPages) (p : Nat) : Option Byte :=
  dp.pages.findSome? fun pg =>
    if pg.offset ≤ p ∧ p < pg.offset + pg.data.length then
      pg.data.get? (p - pg.offset)
    else none

/-- Per-open-file state (mount.FileHandle): reference identity of the handle
object itself, numeric handle id (fh), object identity (inode), shared entry
(none models a nil entry pointer), dirty buffer, cached content type, and the
dirty-metadata flag.  The committed remote bytes visible through this handle
and an injected hard chunk-read error stand in for the external chunk store
(spec section 6). -/
structure FileHandle where
  ref : Nat
  fh : Nat
  inode : Nat
  entry : Option Entry
  dirtyPages : DirtyPages
  contentType : List Byte
  dirtyMetadata : Bool
  chunkData : List Byte
  chunkReadHardError : Bool
  deriving DecidableEq

/-- Error outcomes of a chunk-store read: benign end-of-data, or a hard error. -/
inductive ChunkReadErr where
  | eof
  | hard
  deriving DecidableEq

/-- Modelled from the spec: FileHandle.readFromChunks (spec section 4.1), which
is absent from src/.  It fills a fresh zeroed buffer of the requested length
with the committed bytes available at the offset, returns how many bytes it
produced, and reports end-of-data as a benign error when fewer bytes than
requested were available; an injected transport error surfaces as a hard
error. -/
def FileHandle.readFromChunks (fhd : FileHandle) (len offset : Nat) :
    List Byte × Nat × Option ChunkReadErr :=
  if fhd.chunkReadHardError then
    (List.replicate len 0, 0, some ChunkReadErr.hard)
  else
    let avail := (fhd.chunkData.drop offset).take len
    (avail ++ List.replicate (len - avail.length) 0, avail.length,
      if avail.length < len then some ChunkReadErr.eof else none)

/-- Modelled from the spec: FileHandle.readFromDirtyPages (spec section 4.1),
which is absent from src/.  It overlays the buffered dirty bytes on top of the
buffer for every offset they cover inside the read window and returns the
highest absolute offset covered by dirty data inside the window (0 when no
dirty range intersects it). -/
def FileHandle.readFromDirtyPages (fhd : FileHandle) (buf : List Byte)
    (offset : Nat) : List Byte × Nat :=
  let n := buf.length
  let merged := (List.range n).map fun i =>
    match fhd.dirtyPages.byteAt (offset + i) with
    | some b => b
    | none => buf.getD i 0
  let maxStop := fhd.dirtyPages.pages.foldl (fun acc pg =>
    if pg.offset < offset + n ∧ offset < pg.offset + pg.data.length then
      max acc (min (pg.offset + pg.data.length) (offset + n))
    else acc) 0
  (merged, maxStop)

/-- Result of the source-read phase: the merged buffer, the byte count the Go
variable totalRead holds after the merge, and whether the chunk read failed
hard. -/
structure ReadOut where
  buf : List Byte
  totalRead : Nat
  hardErr : Bool

/-- The source-read block of CopyFileRange (lines 88-97 of the Go file):
readFromChunks, then, when the chunk read succeeded or reported benign
end-of-data, the dirty-page overlay with
totalRead = max(maxStop - offset, totalRead); end-of-data is then cleared so
only a hard error survives.  maxStop - offset is computed in Nat; when
maxStop < offset the Go int64 difference is negative and the max picks
totalRead, which truncated Nat subtraction reproduces. -/
def FileHandle.mergedRead (fhd : FileHandle) (offset len : Nat) : ReadOut :=
  let r := fhd.readFromChunks len offset
  if r.2.2 = some ChunkReadErr.hard then
    { buf := r.1, totalRead := r.2.1, hardErr := true }
  else
    let m := fhd.readFromDirtyPages r.1 offset
    { buf := m.1, totalRead := max (m.2 - offset) r.2.1, hardErr := false }

/-- Modelled from the spec: the external MIME sniffer (spec section 6,
http.DetectContentType) is a pure function of at most the first 512 bytes of
content; it is modelled as the identity so that theorems can observe exactly
which bytes the code submitted to it. -/
def DetectContentType (bs : List Byte) : List Byte := bs

/-- Modelled from the spec: the handle registry (spec section 6), a lookup
from numeric handle id to a live handle or absent. -/
structure WFS where
  handles : Nat → Option FileHandle

def WFS.GetHandle (wfs : WFS) (id : Nat) : Option FileHandle :=
  wfs.handles id

/-- The fuse.CopyFileRangeIn request: all fields are uint64 values. -/
structure CopyIn where
  Flags : Nat
  FhIn : Nat
  FhOut : Nat
  OffIn : Nat
  OffOut : Nat
  Len : Nat
  deriving DecidableEq

/-- offInEnd := in.OffIn + in.Len - 1 computed in uint64 arithmetic: for
OffIn, Len < 2^64 the wrapping subtraction of 1 equals adding 2^64 - 1 and
reducing mod 2^64. -/
def offInEnd (req : CopyIn) : Nat :=
  (req.OffIn + req.Len + (U64 - 1)) % U64

/-- offOutEnd := in.OffOut + in.Len - 1 in uint64 arithmetic. -/
def offOutEnd (req : CopyIn) : Nat :=
  (req.OffOut + req.Len + (U64 - 1)) % U64

/-- The two GetHandle calls, in code order. -/
def resolveEvents (req : CopyIn) : List Event :=
  [Event.resolve req.FhOut, Event.resolve req.FhIn]

/-- fhOut.Lock(); fhOut.entryLock.Lock() -/
def outLocks (fhOut : FileHandle) : List Event :=
  [Event.lockHandle fhOut.ref, Event.lockEntry fhOut.ref]

/-- The deferred unlocks of the destination handle, in the order they run. -/
def outUnlocks (fhOut : FileHandle) : List Event :=
  [Event.unlockEntry fhOut.ref, Event.unlockHandle fhOut.ref]

/-- The source-handle locks, taken only when the two handles' numeric fh ids
differ (the code's test is fhIn.fh != fhOut.fh). -/
def inLocks (fhIn fhOut : FileHandle) : List Event :=
  if fhIn.fh ≠ fhOut.fh then [Event.lockHandle fhIn.ref, Event.lockEntry fhIn.ref]
  else []

/-- The deferred unlocks of the source handle, in the order they run. -/
def inUnlocks (fhIn fhOut : FileHandle) : List Event :=
  if fhIn.fh ≠ fhOut.fh then [Event.unlockEntry fhIn.ref, Event.unlockHandle fhIn.ref]
  else []

/-- Events performed before the directory check: resolution, destination
locks, and (conditionally) source locks. -/
def tracePre (fhIn fhOut : FileHandle) (req : CopyIn) : List Event :=
  resolveEvents req ++ outLocks fhOut ++ inLocks fhIn fhOut

/-- The full event trace of a call that reached the source read: the read
lock on the source region is taken and all deferred unlocks then run in
reverse acquisition order. -/
def coreTrace (fhIn fhOut : FileHandle) (req : CopyIn) : List Event :=
  tracePre fhIn fhOut req ++ [Event.lockForRead fhIn.ref] ++
    [Event.unlockForRead fhIn.ref] ++ inUnlocks fhIn fhOut ++ outUnlocks fhOut

/-- Outcome of one call: the uint32 byte count, the status, the state of the
destination handle when the call returns (none when it was never resolved),
and the ordered event trace. -/
structure CopyResult where
  written : Nat
  code : Status
  fhOutAfter : Option FileHandle
  trace : List Event
  deriving DecidableEq

/-- Lines 84-121 of the Go file: the source read and, unless it failed hard
or produced nothing, the destination write: monitor feed, cached-content
invalidation, AddPage of the (request-length) buffer, size update to
max(OffOut + totalRead, old size), dirty-metadata mark, and the conditional
MIME sniff over data[0 : min(totalRead, 512) - 1]. -/
def copyCore (req : CopyIn) (fhIn fhOut : FileHandle) (eOut : Entry) : CopyResult :=
  let ro := fhIn.mergedRead req.OffIn req.Len
  if ro.hardErr then
    { written := 0, code := Status.EIO, fhOutAfter := some fhOut,
      trace := coreTrace fhIn fhOut req }
  else if ro.totalRead = 0 then
    { written := 0, code := Status.OK, fhOutAfter := some fhOut,
      trace := coreTrace fhIn fhOut req }
  else
    let wp := fhOut.dirtyPages.writerPattern.MonitorWriteAt req.OffOut req.Len
    let dp := DirtyPages.AddPage { fhOut.dirtyPages with writerPattern := wp }
      req.OffOut ro.buf wp.IsSequentialMode
    let newSize := max (req.OffOut + ro.totalRead) eOut.Attributes.FileSize
    let written := ro.totalRead % U32
    let ct := if written > 0 ∧ req.OffOut ≤ 512 then
        DetectContentType (ro.buf.take (min ro.totalRead 512 - 1))
      else fhOut.contentType
    let entryOut : Entry :=
      { IsDirectory := eOut.IsDirectory, Attributes := { FileSize := newSize },
        Content := none }
    { written := written, code := Status.OK,
      fhOutAfter := some
        { fhOut with
            entry := some entryOut, dirtyPages := dp,
            dirtyMetadata := true, contentType := ct },
      trace := coreTrace fhIn fhOut req }

/-- WFS.CopyFileRange (weedfs_file_copy_range.go): flag validation, handle
resolution, destination locks, nil-entry check on the destination only,
conditional source locks, directory rejection (dereferencing fhIn.entry with
no nil guard, modelled as the result none), the uint64 overlap rejection, and
the read/write core.  The trace of each exit lists every lock/unlock in the
order the code performs them (defers run last-in-first-out). -/
def CopyFileRange (wfs : WFS) (req : CopyIn) : Option CopyResult :=
  if req.Flags ≠ 0 then
    some { written := 0, code := Status.EINVAL, fhOutAfter := none, trace := [] }
  else
    match wfs.GetHandle req.FhOut with
    | none => some { written := 0, code := Status.EBADF, fhOutAfter := none,
                     trace := [Event.resolve req.FhOut] }
    | some fhOut =>
      match wfs.GetHandle req.FhIn with
      | none => some { written := 0, code := Status.EBADF, fhOutAfter := some fhOut,
                       trace := resolveEvents req }
      | some fhIn =>
        match fhOut.entry with
        | none => some { written := 0, code := Status.ENOENT, fhOutAfter := some fhOut,
                         trace := resolveEvents req ++ outLocks fhOut ++ outUnlocks fhOut }
        | some eOut =>
          match fhIn.entry with
          | none => none
          | some eIn =>
            if eIn.IsDirectory || eOut.IsDirectory then
              some { written := 0, code := Status.EISDIR, fhOutAfter := some fhOut,
                     trace := tracePre fhIn fhOut req ++ inUnlocks fhIn fhOut ++
                       outUnlocks fhOut }
            else if fhIn.inode = fhOut.inode ∧ req.OffIn ≤ offOutEnd req ∧
                offInEnd req ≥ req.OffOut then
              some { written := 0, code := Status.EINVAL, fhOutAfter := some fhOut,
                     trace := tracePre fhIn fhOut req ++ inUnlocks fhIn fhOut ++
                       outUnlocks fhOut }
            else
              some (copyCore req fhIn fhOut eOut)

/-- The request passed flag, handle, entry, directory and overlap validation
with the given resolved handles and entries. -/
abbrev Passes (wfs : WFS) (req : CopyIn) (fhIn fhOut : FileHandle)
    (eIn eOut : Entry) : Prop :=
  req.Flags = 0 ∧ wfs.GetHandle req.FhOut = some fhOut ∧
    wfs.GetHandle req.FhIn = some fhIn ∧
    fhOut.entry = some eOut ∧ fhIn.entry = some eIn ∧
    eIn.IsDirectory = false ∧ eOut.IsDirectory = false ∧
    ¬(fhIn.inode = fhOut.inode ∧ req.OffIn ≤ offOutEnd req ∧
      offInEnd req ≥ req.OffOut)

/-- Whether an event is a lock acquisition. -/
def isLockEvt : Event → Bool
  | Event.lockHandle _ => true
  | Event.lockEntry _ => true
  | Event.lockForRead _ => true
  | _ => false

/-- Whether an event is a lock release. -/
def isUnlockEvt : Event → Bool
  | Event.unlockHandle _ => true
  | Event.unlockEntry _ => true
  | Event.unlockForRead _ => true
  | _ => false

/-- The lock acquisitions of a trace, in order. -/
def lockEvts (tr : List Event) : List Event := tr.filter isLockEvt

/-- The lock releases of a trace, in order. -/
def unlockEvts (tr : List Event) : List Event := tr.filter isUnlockEvt

/-- The acquisition event that a release event matches. -/
def unlockOf : Event → Event
  | Event.unlockHandle n => Event.lockHandle n
  | Event.unlockEntry n => Event.lockEntry n
  | Event.unlockForRead n => Event.lockForRead n
  | e => e

/-- The full acquisition order of a call that runs to the source read:
destination handle-lock, destination entry-lock, then — exactly when the two
handles' numeric fh ids differ — source handle-lock and source entry-lock,
and finally the source read-lock. -/
def canonLocks (wfs : WFS) (req : CopyIn) : List Event :=
  match wfs.GetHandle req.FhOut, wfs.GetHandle req.FhIn with
  | some fhOut, some fhIn =>
      outLocks fhOut ++ inLocks fhIn fhOut ++ [Event.lockForRead fhIn.ref]
  | _, _ => []

/-- The result every request with non-zero flags produces: immediate EINVAL
with an empty event trace. -/
def emptyRes : CopyResult :=
  { written := 0, code := Status.EINVAL, fhOutAfter := none, trace := [] }

/-! Concrete states used by the closed scenario theorems and witnesses. -/

def wpInit : WriterPattern := { lastOffset := 0, lastLength := 0, streak := 0 }

/-- A plain file entry of the given size with no cached content. -/
def entryFile (sz : Nat) : Entry :=
  { IsDirectory := false, Attributes := { FileSize := sz }, Content := none }

/-- Source with committed bytes "0123456789" and dirty overlay "XY" at offset 3. -/
def srcA : FileHandle :=
  { ref := 1, fh := 1, inode := 100, entry := some (entryFile 10),
    dirtyPages := { pages := [{ offset := 3, data := [88, 89] }],
                    writerPattern := wpInit },
    contentType := [], dirtyMetadata := false,
    chunkData := [48, 49, 50, 51, 52, 53, 54, 55, 56, 57],
    chunkReadHardError := false }

/-- A fresh, empty destination on a different object. -/
def dstA : FileHandle :=
  { ref := 2, fh := 2, inode := 200, entry := some (entryFile 0),
    dirtyPages := { pages := [], writerPattern := wpInit },
    contentType := [], dirtyMetadata := false, chunkData := [],
    chunkReadHardError := false }

def wfsA : WFS :=
  ⟨fun id => if id = 1 then some srcA else if id = 2 then some dstA else none⟩

def reqA : CopyIn :=
  { Flags := 0, FhIn := 1, FhOut := 2, OffIn := 0, OffOut := 0, Len := 10 }

/-- A request with non-zero flags. -/
def reqJ : CopyIn :=
  { Flags := 5, FhIn := 1, FhOut := 2, OffIn := 0, OffOut := 0, Len := 4 }

/-- A single handle with 5 committed bytes, used for same-object requests. -/
def hB : FileHandle :=
  { ref := 1, fh := 1, inode := 100, entry := some (entryFile 5),
    dirtyPages := { pages := [], writerPattern := wpInit },
    contentType := [], dirtyMetadata := false, chunkData := [1, 2, 3, 4, 5],
    chunkReadHardError := false }

def wfsB : WFS := ⟨fun id => if id = 1 then some hB else none⟩

/-- A same-object request of length 0. -/
def reqB : CopyIn :=
  { Flags := 0, FhIn := 1, FhOut := 1, OffIn := 0, OffOut := 0, Len := 0 }

/-- A same-object request of length 1 over an overlapping range. -/
def reqB1 : CopyIn :=
  { Flags := 0, FhIn := 1, FhOut := 1, OffIn := 0, OffOut := 0, Len := 1 }

/-- Source with only 5 committed bytes for an 8-byte request. -/
def srcC : FileHandle :=
  { ref := 1, fh := 1, inode := 100, entry := some (entryFile 5),
    dirtyPages := { pages := [], writerPattern := wpInit },
    contentType := [], dirtyMetadata := false, chunkData := [10, 11, 12, 13, 14],
    chunkReadHardError := false }

/-- Destination that already holds 10 dirty bytes 20..29 at offset 0. -/
def dstC : FileHandle :=
  { ref := 2, fh := 2, inode := 200, entry := some (entryFile 10),
    dirtyPages := { pages := [{ offset := 0,
                                data := [20, 21, 22, 23, 24, 25, 26, 27, 28, 29] }],
                    writerPattern := wpInit },
    contentType := [], dirtyMetadata := false, chunkData := [],
    chunkReadHardError := false }

def wfsC : WFS :=
  ⟨fun id => if id = 1 then some srcC else if id = 2 then some dstC else none⟩

/-- An 8-byte request of which only 5 source bytes exist (short read). -/
def reqC : CopyIn :=
  { Flags := 0, FhIn := 1, FhOut := 2, OffIn := 0, OffOut := 0, Len := 8 }

/-- Destination with a cached content type, written at offset 600. -/
def dstD : FileHandle :=
  { ref := 2, fh := 2, inode := 200, entry := some (entryFile 0),
    dirtyPages := { pages := [], writerPattern := wpInit },
    contentType := [9, 9, 9], dirtyMetadata := false, chunkData := [],
    chunkReadHardError := false }

def wfsD : WFS :=
  ⟨fun id => if id = 1 then some srcA else if id = 2 then some dstD else none⟩

def reqD : CopyIn :=
  { Flags := 0, FhIn := 1, FhOut := 2, OffIn := 0, OffOut := 600, Len := 10 }

/-- Two distinct handle objects (different ref, different inode) that share
the numeric fh id 7; the registry model does not require distinct ids to map
to handles with distinct fh fields, and neither does the spec. -/
def hE1 : FileHandle :=
  { ref := 1, fh := 7, inode := 100, entry := some (entryFile 1),
    dirtyPages := { pages := [], writerPattern := wpInit },
    contentType := [], dirtyMetadata := false, chunkData := [3],
    chunkReadHardError := false }

def hE2 : FileHandle :=
  { ref := 2, fh := 7, inode := 200, entry := some (entryFile 1),
    dirtyPages := { pages := [], writerPattern := wpInit },
    contentType := [], dirtyMetadata := false, chunkData := [4],
    chunkReadHardError := false }

def wfsE : WFS :=
  ⟨fun id => if id = 1 then some hE1 else if id = 2 then some hE2 else none⟩

def reqE : CopyIn :=
  { Flags := 0, FhIn := 2, FhOut := 1, OffIn := 0, OffOut := 0, Len := 1 }

/-- Destination handle whose entry pointer is nil. -/
def dstF : FileHandle :=
  { ref := 2, fh := 2, inode := 200, entry := none,
    dirtyPages := { pages := [], writerPattern := wpInit },
    contentType := [], dirtyMetadata := false, chunkData := [],
    chunkReadHardError := false }

def wfsF : WFS :=
  ⟨fun id => if id = 1 then some srcA else if id = 2 then some dstF else none⟩

def reqF : CopyIn :=
  { Flags := 0, FhIn := 1, FhOut := 2, OffIn := 0, OffOut := 0, Len := 1 }

/-- Source handle whose entry pointer is nil. -/
def srcG : FileHandle :=
  { ref := 1, fh := 1, inode := 100, entry := none,
    dirtyPages := { pages := [], writerPattern := wpInit },
    contentType := [], dirtyMetadata := false, chunkData := [],
    chunkReadHardError := false }

def wfsG : WFS :=
  ⟨fun id => if id = 1 then some srcG else if id = 2 then some dstA else none⟩

def reqG : CopyIn :=
  { Flags := 0, FhIn := 1, FhOut := 2, OffIn := 0, OffOut := 0, Len := 1 }

/-- Source whose chunk read fails with a hard (non-end-of-data) error. -/
def srcH : FileHandle :=
  { ref := 1, fh := 1, inode := 100, entry := some (entryFile 5),
    dirtyPages := { pages := [], writerPattern := wpInit },
    contentType := [], dirtyMetadata := false, chunkData := [1, 2, 3],
    chunkReadHardError := true }

def wfsH : WFS :=
  ⟨fun id => if id = 1 then some srcH else if id = 2 then some dstA else none⟩

def reqH : CopyIn :=
  { Flags := 0, FhIn := 1, FhOut := 2, OffIn := 0, OffOut := 0, Len := 3 }

/-- Source that is entirely empty: no committed bytes, no dirty bytes. -/
def srcI : FileHandle :=
  { ref := 1, fh := 1, inode := 100, entry := some (entryFile 0),
    dirtyPages := { pages := [], writerPattern := wpInit },
    contentType := [], dirtyMetadata := false, chunkData := [],
    chunkReadHardError := false }

def wfsI : WFS :=
  ⟨fun id => if id = 1 then some srcI else if id = 2 then some dstA else none⟩

def reqI : CopyIn :=
  { Flags := 0, FhIn := 1, FhOut := 2, OffIn := 0, OffOut := 0, Len := 4 }

theorem copyFileRange_eq_core {wfs : WFS} {req : CopyIn} {fhIn fhOut : FileHandle}
    {eIn eOut : Entry} (h : Passes wfs req fhIn fhOut eIn eOut) :
    CopyFileRange wfs req = some (copyCore req fhIn fhOut eOut) := by
  obtain ⟨hf, hO, hI, heO, heI, hdI, hdO, hov⟩ := h
  unfold CopyFileRange
  simp only [hf, hO, hI, heO, heI, hdI, hdO, ne_eq, not_true_eq_false, if_false,
    Bool.or_self, Bool.false_eq_true, if_neg hov]

theorem mergedRead_hardErr (fhd : FileHandle) (offset len : Nat) :
    (fhd.mergedRead offset len).hardErr = fhd.chunkReadHardError := by
  unfold FileHandle.mergedRead FileHandle.readFromChunks
  by_cases h : fhd.chunkReadHardError
  · simp [h]
  · simp only [h, Bool.false_eq_true, if_false]
    by_cases h2 : ((fhd.chunkData.drop offset).take len).length < len <;> simp [h2]

theorem mergedRead_buf_length (fhd : FileHandle) (offset len : Nat) :
    (fhd.mergedRead offset len).buf.length = len := by
  unfold FileHandle.mergedRead FileHandle.readFromChunks FileHandle.readFromDirtyPages
  have hle : ((fhd.chunkData.drop offset).take len).length ≤ len := by
    simp [List.length_take_le]
  by_cases h : fhd.chunkReadHardError
  · simp [h]
  · simp only [h, Bool.false_eq_true, if_false]
    by_cases h2 : ((fhd.chunkData.drop offset).take len).length < len <;> simp [h2]

theorem copyCore_trace (req : CopyIn) (fhIn fhOut : FileHandle) (eOut : Entry) :
    (copyCore req fhIn fhOut eOut).trace = coreTrace fhIn fhOut req := by
  by_cases h1 : (fhIn.mergedRead req.OffIn req.Len).hardErr
  · simp [copyCore, h1]
  · by_cases h2 : (fhIn.mergedRead req.OffIn req.Len).totalRead = 0 <;>
      simp [copyCore, h1, h2]

theorem copyCore_code (req : CopyIn) (fhIn fhOut : FileHandle) (eOut : Entry) :
    (copyCore req fhIn fhOut eOut).code = Status.EIO ∨
      (copyCore req fhIn fhOut eOut).code = Status.OK := by
  by_cases h1 : (fhIn.mergedRead req.OffIn req.Len).hardErr
  · left
    simp [copyCore, h1]
  · by_cases h2 : (fhIn.mergedRead req.OffIn req.Len).totalRead = 0 <;>
      · right
        simp [copyCore, h1, h2]

theorem byteAt_of_pages (dp : DirtyPages) (pg : DirtyPage) (rest : List DirtyPage)
    (hp : dp.pages = pg :: rest) (i : Nat) (hi : i < pg.data.length) :
    dp.byteAt (pg.offset + i) = pg.data.get? i := by
  unfold DirtyPages.byteAt
  rw [hp, List.findSome?_cons]
  have hc : pg.offset ≤ pg.offset + i ∧ pg.offset + i < pg.offset + pg.data.length :=
    ⟨Nat.le_add_right _ _, Nat.add_lt_add_left hi _⟩
  rw [if_pos hc, Nat.add_sub_cancel_left, List.get?_eq_get hi]

theorem readFromChunks_buf_length (fhd : FileHandle) (len offset : Nat) :
    (fhd.readFromChunks len offset).1.length = len := by
  unfold FileHandle.readFromChunks
  have hle : ((fhd.chunkData.drop offset).take len).length ≤ len := by
    simp [List.length_take_le]
  by_cases h : fhd.chunkReadHardError <;> simp [h]

theorem readFromChunks_err_ne_hard (fhd : FileHandle)
    (h : fhd.chunkReadHardError = false) (len offset : Nat) :
    ¬((fhd.readFromChunks len offset).2.2 = some ChunkReadErr.hard) := by
  unfold FileHandle.readFromChunks
  simp only [h, Bool.false_eq_true, if_false]
  by_cases h2 : ((fhd.chunkData.drop offset).take len).length < len <;> simp [h2]

/-- Reading a window that the most recent dirty page covers exactly returns
that page's bytes, whatever the committed data holds: the dirty overlay
shadows the chunk read for every offset of the window. -/
theorem mergedRead_head_page (fhd : FileHandle)
    (h : fhd.chunkReadHardError = false) (pg : DirtyPage) (rest : List DirtyPage)
    (hp : fhd.dirtyPages.pages = pg :: rest) :
    (fhd.mergedRead pg.offset pg.data.length).buf = pg.data := by
  have hne := readFromChunks_err_ne_hard fhd h pg.data.length pg.offset
  simp only [FileHandle.mergedRead, hne, if_false, FileHandle.readFromDirtyPages]
  apply List.ext_getElem
  · simp [readFromChunks_buf_length]
  · intro i h1 h2
    have hi : i < pg.data.length := h2
    have hibuf : i < (fhd.readFromChunks pg.data.length pg.offset).1.length := by
      rw [readFromChunks_buf_length]
      exact hi
    simp only [List.getElem_map, List.getElem_range,
      byteAt_of_pages fhd.dirtyPages pg rest hp i hi, List.get?_eq_get hi,
      List.get_eq_getElem]

/-- Arithmetic fact: for 1 ≤ len and off + len ≤ 2^64 the uint64 computation
of off + len - 1 does not wrap. -/
theorem endNoWrap {off len : Nat} (h1 : 1 ≤ len) (h2 : off + len ≤ U64) :
    (off + len + (U64 - 1)) % U64 = off + len - 1 := by
  have hU : U64 = 18446744073709551616 := by norm_num [U64]
  have he : off + len + (U64 - 1) = (off + len - 1) + U64 := by omega
  rw [he, Nat.add_mod_right]
  exact Nat.mod_eq_of_lt (by omega)

/-- The exact result of the write branch of copyCore: a successful non-empty
read feeds the monitor, invalidates the cached content, pushes the whole
request-length merged buffer as a new dirty page, raises the size to
max(OffOut + totalRead, old size), marks the metadata dirty, and sniffs
data[0 : min(totalRead, 512) - 1] exactly when the truncated uint32 count is
positive and OffOut ≤ 512. -/
theorem copyCore_success_eq (req : CopyIn) (fhIn fhOut : FileHandle) (eOut : Entry)
    (hh : (fhIn.mergedRead req.OffIn req.Len).hardErr = false)
    (h0 : (fhIn.mergedRead req.OffIn req.Len).totalRead ≠ 0) :
    copyCore req fhIn fhOut eOut =
      { written := (fhIn.mergedRead req.OffIn req.Len).totalRead % U32,
        code := Status.OK,
        fhOutAfter := some
          { fhOut with
              entry := some
                { IsDirectory := eOut.IsDirectory,
                  Attributes :=
                    { FileSize :=
                        max (req.OffOut +
                            (fhIn.mergedRead req.OffIn req.Len).totalRead)
                          eOut.Attributes.FileSize },
                  Content := none },
              dirtyPages :=
                { pages := { offset := req.OffOut,
                             data := (fhIn.mergedRead req.OffIn req.Len).buf } ::
                    fhOut.dirtyPages.pages,
                  writerPattern :=
                    fhOut.dirtyPages.writerPattern.MonitorWriteAt req.OffOut req.Len },
              dirtyMetadata := true,
              contentType :=
                if (fhIn.mergedRead req.OffIn req.Len).totalRead % U32 > 0 ∧
                    req.OffOut ≤ 512 then
                  DetectContentType ((fhIn.mergedRead req.OffIn req.Len).buf.take
                    (min (fhIn.mergedRead req.OffIn req.Len).totalRead 512 - 1))
                else fhOut.contentType },
        trace := coreTrace fhIn fhOut req } := by
  simp [copyCore, hh, h0, DirtyPages.AddPage]

/-- C1: for every request that passes validation and whose chunk read does not
fail hard (benign end-of-data included), the call succeeds, and when it
transfers bytes the page inserted at the destination is exactly the source
handle's merged view (committed bytes from readFromChunks with dirty bytes
overlaid by readFromDirtyPages) at call time; moreover the spec scenario
holds: committed bytes "0123456789" with dirty overlay "XY" at offsets 3-4
read back as "012XY56789", and copying range [0,10) to a fresh destination at
offset 0 yields written = 10, destination size 10, and destination content
"012XY56789". -/
theorem C1_merged_view_copy :
    (∀ wfs req fhIn fhOut eIn eOut, Passes wfs req fhIn fhOut eIn eOut →
      fhIn.chunkReadHardError = false →
      (CopyFileRange wfs req).map (fun r => r.code) = some Status.OK ∧
      ((fhIn.mergedRead req.OffIn req.Len).totalRead ≠ 0 →
        ((CopyFileRange wfs req).bind (fun r => r.fhOutAfter)).map
            (fun f => f.dirtyPages.pages.head?) =
          some (some { offset := req.OffOut,
                       data := (fhIn.mergedRead req.OffIn req.Len).buf }))) ∧
    (srcA.mergedRead 0 10).buf = [48, 49, 50, 88, 89, 53, 54, 55, 56, 57] ∧
    (CopyFileRange wfsA reqA).map (fun r => (r.written, r.code)) =
      some (10, Status.OK) ∧
    (((CopyFileRange wfsA reqA).bind (fun r => r.fhOutAfter)).bind
        (fun f => f.entry)).map (fun e => e.Attributes.FileSize) = some 10 ∧
    ((CopyFileRange wfsA reqA).bind (fun r => r.fhOutAfter)).map
        (fun f => (f.mergedRead 0 10).buf) =
      some [48, 49, 50, 88, 89, 53, 54, 55, 56, 57] := by
  refine ⟨?_, by decide, by decide, by decide, by decide⟩
  intro wfs req fhIn fhOut eIn eOut hp hhard
  have hh : (fhIn.mergedRead req.OffIn req.Len).hardErr = false := by
    rw [mergedRead_hardErr]
    exact hhard
  rw [copyFileRange_eq_core hp]
  constructor
  · by_cases h0 : (fhIn.mergedRead req.OffIn req.Len).totalRead = 0 <;>
      simp [copyCore, hh, h0]
  · intro h0
    rw [copyCore_success_eq req fhIn fhOut eOut hh h0]
    simp

/-- C1 witness: the general part of C1 instantiated at the concrete scenario
state, with every hypothesis discharged by evaluation. -/
theorem C1_witness :
    (CopyFileRange wfsA reqA).map (fun r => r.code) = some Status.OK ∧
    ((srcA.mergedRead 0 10).totalRead ≠ 0 →
      ((CopyFileRange wfsA reqA).bind (fun r => r.fhOutAfter)).map
          (fun f => f.dirtyPages.pages.head?) =
        some (some { offset := 0, data := (srcA.mergedRead 0 10).buf })) :=
  C1_merged_view_copy.1 wfsA reqA srcA dstA (entryFile 10) (entryFile 0)
    (by decide) (by decide)

/-- C3: for every request that passes validation and whose source chunk read
returns a hard (non-end-of-data) error, the call returns EIO with zero bytes
written and the destination handle is returned completely unchanged: entry,
size, cached content, dirty-metadata flag, dirty pages, writer pattern and
content type are all as before. -/
theorem C3_hard_error_no_mutation (wfs : WFS) (req : CopyIn)
    (fhIn fhOut : FileHandle) (eIn eOut : Entry)
    (hp : Passes wfs req fhIn fhOut eIn eOut)
    (hhard : fhIn.chunkReadHardError = true) :
    (CopyFileRange wfs req).map (fun r => (r.written, r.code, r.fhOutAfter)) =
      some (0, Status.EIO, some fhOut) := by
  have hh : (fhIn.mergedRead req.OffIn req.Len).hardErr = true := by
    rw [mergedRead_hardErr]
    exact hhard
  rw [copyFileRange_eq_core hp]
  simp [copyCore, hh]

/-- C3 witness: a concrete source whose chunk read fails hard gives EIO and an
untouched destination. -/
theorem C3_witness :
    (CopyFileRange wfsH reqH).map (fun r => (r.written, r.code, r.fhOutAfter)) =
      some (0, Status.EIO, some dstA) :=
  C3_hard_error_no_mutation wfsH reqH srcH dstA (entryFile 5) (entryFile 0)
    (by decide) (by decide)

/-- C4: for every request that passes validation and actually transfers
totalRead > 0 bytes, the destination entry size afterwards is exactly
max(size before, OffOut + totalRead) — hence never smaller than before — and
the destination dirty-metadata flag is set. -/
theorem C4_size_update (wfs : WFS) (req : CopyIn) (fhIn fhOut : FileHandle)
    (eIn eOut : Entry) (hp : Passes wfs req fhIn fhOut eIn eOut)
    (hhard : fhIn.chunkReadHardError = false)
    (h0 : (fhIn.mergedRead req.OffIn req.Len).totalRead ≠ 0) :
    ((CopyFileRange wfs req).bind (fun r => r.fhOutAfter)).map
        (fun f => (f.entry.map (fun e => e.Attributes.FileSize), f.dirtyMetadata)) =
      some (some (max (req.OffOut + (fhIn.mergedRead req.OffIn req.Len).totalRead)
        eOut.Attributes.FileSize), true) ∧
    eOut.Attributes.FileSize ≤
      max (req.OffOut + (fhIn.mergedRead req.OffIn req.Len).totalRead)
        eOut.Attributes.FileSize := by
  have hh : (fhIn.mergedRead req.OffIn req.Len).hardErr = false := by
    rw [mergedRead_hardErr]
    exact hhard
  refine ⟨?_, le_max_right _ _⟩
  rw [copyFileRange_eq_core hp, copyCore_success_eq req fhIn fhOut eOut hh h0]
  simp

/-- C4 witness: the concrete scenario extends the destination from size 0 to
max(0 + 10, 0) = 10 and marks its metadata dirty. -/
theorem C4_witness :
    ((CopyFileRange wfsA reqA).bind (fun r => r.fhOutAfter)).map
        (fun f => (f.entry.map (fun e => e.Attributes.FileSize), f.dirtyMetadata)) =
      some (some (max (0 + (srcA.mergedRead 0 10).totalRead)
        (entryFile 0).Attributes.FileSize), true) ∧
    (entryFile 0).Attributes.FileSize ≤
      max (0 + (srcA.mergedRead 0 10).totalRead) (entryFile 0).Attributes.FileSize :=
  C4_size_update wfsA reqA srcA dstA (entryFile 10) (entryFile 0)
    (by decide) (by decide) (by decide)

/-- C6: for every request that passes validation, whose chunk read does not
fail hard, and whose merged source read yields zero bytes, the call succeeds
with written = 0 and the destination handle is returned completely
unchanged. -/
theorem C6_zero_read_no_mutation (wfs : WFS) (req : CopyIn)
    (fhIn fhOut : FileHandle) (eIn eOut : Entry)
    (hp : Passes wfs req fhIn fhOut eIn eOut)
    (hhard : fhIn.chunkReadHardError = false)
    (h0 : (fhIn.mergedRead req.OffIn req.Len).totalRead = 0) :
    (CopyFileRange wfs req).map (fun r => (r.written, r.code, r.fhOutAfter)) =
      some (0, Status.OK, some fhOut) := by
  have hh : (fhIn.mergedRead req.OffIn req.Len).hardErr = false := by
    rw [mergedRead_hardErr]
    exact hhard
  rw [copyFileRange_eq_core hp]
  simp [copyCore, hh, h0]

/-- C6 witness: copying from an entirely empty source succeeds with zero
bytes written and an untouched destination. -/
theorem C6_witness :
    (CopyFileRange wfsI reqI).map (fun r => (r.written, r.code, r.fhOutAfter)) =
      some (0, Status.OK, some dstA) :=
  C6_zero_read_no_mutation wfsI reqI srcI dstA (entryFile 0) (entryFile 0)
    (by decide) (by decide) (by decide)

/-- C7: every request with non-zero flags fails with EINVAL immediately: no
handle is resolved, no lock is taken, nothing is mutated — the returned trace
is empty. -/
theorem C7_nonzero_flags (wfs : WFS) (req : CopyIn) (h : req.Flags ≠ 0) :
    CopyFileRange wfs req =
      some { written := 0, code := Status.EINVAL, fhOutAfter := none,
             trace := [] } := by
  unfold CopyFileRange
  rw [if_pos h]

/-- C7 witness: a concrete request with flags 5 is rejected untouched. -/
theorem C7_witness :
    CopyFileRange wfsA reqJ =
      some { written := 0, code := Status.EINVAL, fhOutAfter := none,
             trace := [] } :=
  C7_nonzero_flags wfsA reqJ (by decide)

/-- C10: only the destination handle's entry is nil-checked: a nil destination
entry returns ENOENT, while a nil source entry is dereferenced by the
directory check with no guard, which is a nil-pointer dereference (modelled as
the result none); the operation is total only when every resolved source
handle has a non-nil entry. -/
theorem C10_entry_nil_asymmetry :
    (∀ wfs req fhIn fhOut, req.Flags = 0 →
      (wfs : WFS).GetHandle (req : CopyIn).FhOut = some fhOut →
      wfs.GetHandle req.FhIn = some fhIn → (fhOut : FileHandle).entry = none →
      (CopyFileRange wfs req).map (fun r => r.code) = some Status.ENOENT) ∧
    (∀ wfs req fhIn fhOut eOut, req.Flags = 0 →
      (wfs : WFS).GetHandle (req : CopyIn).FhOut = some fhOut →
      wfs.GetHandle req.FhIn = some (fhIn : FileHandle) →
      fhOut.entry = some (eOut : Entry) → fhIn.entry = none →
      CopyFileRange wfs req = none) := by
  constructor
  · intro wfs req fhIn fhOut hf hO hI hE
    unfold CopyFileRange
    simp [hf, hO, hI, hE]
  · intro wfs req fhIn fhOut eOut hf hO hI hE hEI
    unfold CopyFileRange
    simp [hf, hO, hI, hE, hEI]

/-- C10 witness: concrete states exercising both halves: nil destination
entry gives ENOENT; nil source entry crashes. -/
theorem C10_witness :
    (CopyFileRange wfsF reqF).map (fun r => r.code) = some Status.ENOENT ∧
    CopyFileRange wfsG reqG = none :=
  ⟨C10_entry_nil_asymmetry.1 wfsF reqF srcA dstF (by decide) (by decide)
      (by decide) (by decide),
    C10_entry_nil_asymmetry.2 wfsG reqG srcG dstA (entryFile 0) (by decide)
      (by decide) (by decide) (by decide) (by decide)⟩

/-- C2 counterexample: the claim says a length-0 request denotes empty
intervals and never fails the overlap check, but the code computes the
interval ends with wrapping uint64 subtraction: a same-object request with
OffIn = OffOut = 0 and Len = 0 (flags 0, valid file handle) is rejected with
EINVAL. -/
theorem C2_len_zero_counterexample :
    reqB.Len = 0 ∧ reqB.Flags = 0 ∧
    (CopyFileRange wfsB reqB).map (fun r => r.code) = some Status.EINVAL := by
  refine ⟨by decide, by decide, by decide⟩

/-- C2 (amended): for every request that passes flag, handle, entry and
directory validation and whose length is at least 1 with no uint64 overflow
in OffIn + Len and OffOut + Len, the call fails with EINVAL exactly when the
two handles' inodes are equal and the closed natural-number intervals
[OffIn, OffIn + Len - 1] and [OffOut, OffOut + Len - 1] intersect, and on
that failure nothing is mutated; length-0 requests instead compare wrapped
uint64 endpoints and can fail the check. -/
theorem C2_overlap_check (wfs : WFS) (req : CopyIn) (fhIn fhOut : FileHandle)
    (eIn eOut : Entry) (r : CopyResult)
    (hf : req.Flags = 0) (hO : wfs.GetHandle req.FhOut = some fhOut)
    (hI : wfs.GetHandle req.FhIn = some fhIn)
    (heO : fhOut.entry = some eOut) (heI : fhIn.entry = some eIn)
    (hdI : eIn.IsDirectory = false) (hdO : eOut.IsDirectory = false)
    (hlen : 1 ≤ req.Len) (hw1 : req.OffIn + req.Len ≤ U64)
    (hw2 : req.OffOut + req.Len ≤ U64)
    (hr : CopyFileRange wfs req = some r) :
    (r.code = Status.EINVAL ↔
      (fhIn.inode = fhOut.inode ∧ req.OffIn ≤ req.OffOut + req.Len - 1 ∧
        req.OffOut ≤ req.OffIn + req.Len - 1)) ∧
    (r.code = Status.EINVAL → r.written = 0 ∧ r.fhOutAfter = some fhOut) := by
  have he1 : offInEnd req = req.OffIn + req.Len - 1 := endNoWrap hlen hw1
  have he2 : offOutEnd req = req.OffOut + req.Len - 1 := endNoWrap hlen hw2
  by_cases hc : fhIn.inode = fhOut.inode ∧ req.OffIn ≤ offOutEnd req ∧
      offInEnd req ≥ req.OffOut
  · unfold CopyFileRange at hr
    simp only [hf, hO, hI, heO, heI, hdI, hdO, ne_eq, not_true_eq_false, if_false,
      Bool.or_self, Bool.false_eq_true, if_pos hc] at hr
    cases hr
    refine ⟨⟨fun _ => ⟨hc.1, ?_, ?_⟩, fun _ => rfl⟩, fun _ => ⟨rfl, rfl⟩⟩
    · rw [← he2]
      exact hc.2.1
    · rw [← he1]
      exact hc.2.2
  · rw [copyFileRange_eq_core ⟨hf, hO, hI, heO, heI, hdI, hdO, hc⟩] at hr
    cases hr
    have hne : (copyCore req fhIn fhOut eOut).code ≠ Status.EINVAL := by
      rcases copyCore_code req fhIn fhOut eOut with h | h <;> simp [h]
    refine ⟨⟨fun habs => absurd habs hne, fun hrhs => ?_⟩,
      fun habs => absurd habs hne⟩
    exfalso
    apply hc
    refine ⟨hrhs.1, ?_, ?_⟩
    · rw [he2]
      exact hrhs.2.1
    · rw [he1]
      exact hrhs.2.2

/-- C2 witness: a same-object length-1 request over byte 0 on both sides
satisfies every hypothesis of the amended overlap rule and is rejected. -/
theorem C2_witness :
    (({ written := 0, code := Status.EINVAL, fhOutAfter := some hB,
        trace := [Event.resolve 1, Event.resolve 1, Event.lockHandle 1,
          Event.lockEntry 1, Event.unlockEntry 1, Event.unlockHandle 1] } :
      CopyResult).code = Status.EINVAL ↔
      (hB.inode = hB.inode ∧ reqB1.OffIn ≤ reqB1.OffOut + reqB1.Len - 1 ∧
        reqB1.OffOut ≤ reqB1.OffIn + reqB1.Len - 1)) ∧
    (({ written := 0, code := Status.EINVAL, fhOutAfter := some hB,
        trace := [Event.resolve 1, Event.resolve 1, Event.lockHandle 1,
          Event.lockEntry 1, Event.unlockEntry 1, Event.unlockHandle 1] } :
      CopyResult).code = Status.EINVAL →
      ({ written := 0, code := Status.EINVAL, fhOutAfter := some hB,
         trace := [Event.resolve 1, Event.resolve 1, Event.lockHandle 1,
           Event.lockEntry 1, Event.unlockEntry 1, Event.unlockHandle 1] } :
        CopyResult).written = 0 ∧
        ({ written := 0, code := Status.EINVAL, fhOutAfter := some hB,
           trace := [Event.resolve 1, Event.resolve 1, Event.lockHandle 1,
             Event.lockEntry 1, Event.unlockEntry 1, Event.unlockHandle 1] } :
          CopyResult).fhOutAfter = some hB) :=
  C2_overlap_check wfsB reqB1 hB hB (entryFile 5) (entryFile 5) _
    (by decide) (by decide) (by decide) (by decide) (by decide) (by decide)
    (by decide) (by decide) (by decide) (by decide) (by decide)

/-- C5 counterexample: on a short read (5 of 8 requested bytes available) the
code does not insert only the 5 read bytes: it inserts the whole 8-byte
request buffer, whose zero-padded tail overwrites destination bytes that were
previously present (the dirty byte 26 at offset 6 becomes 0). -/
theorem C5_short_read_counterexample :
    (srcC.mergedRead 0 8).totalRead = 5 ∧
    reqC.Len = 8 ∧
    ((CopyFileRange wfsC reqC).bind (fun r => r.fhOutAfter)).map
        (fun f => f.dirtyPages.pages.head?.map (fun p => p.data.length)) =
      some (some 8) ∧
    dstC.dirtyPages.byteAt 6 = some 26 ∧
    ((CopyFileRange wfsC reqC).bind (fun r => r.fhOutAfter)).map
        (fun f => f.dirtyPages.byteAt 6) = some (some 0) ∧
    (CopyFileRange wfsC reqC).map (fun r => r.written) = some 5 := by
  refine ⟨by decide, by decide, by decide, by decide, by decide, by decide⟩

/-- C5 (amended): every successful transferring copy inserts at dstOffset the
entire request-length merged source buffer — the totalRead read bytes
followed by zero padding — as one dirty page; a subsequent read of the
destination window [dstOffset, dstOffset + Len) returns exactly that buffer
(so the first totalRead bytes read back are exactly the source bytes, and the
padding bytes beyond them read back as zeros). -/
theorem C5_insert_full_buffer (wfs : WFS) (req : CopyIn)
    (fhIn fhOut : FileHandle) (eIn eOut : Entry)
    (hp : Passes wfs req fhIn fhOut eIn eOut)
    (hhard : fhIn.chunkReadHardError = false)
    (h0 : (fhIn.mergedRead req.OffIn req.Len).totalRead ≠ 0)
    (hdh : fhOut.chunkReadHardError = false) :
    ((CopyFileRange wfs req).bind (fun r => r.fhOutAfter)).map
        (fun f => f.dirtyPages.pages) =
      some ({ offset := req.OffOut,
              data := (fhIn.mergedRead req.OffIn req.Len).buf } ::
        fhOut.dirtyPages.pages) ∧
    (fhIn.mergedRead req.OffIn req.Len).buf.length = req.Len ∧
    ((CopyFileRange wfs req).bind (fun r => r.fhOutAfter)).map
        (fun f => (f.mergedRead req.OffOut req.Len).buf) =
      some (fhIn.mergedRead req.OffIn req.Len).buf := by
  have hh : (fhIn.mergedRead req.OffIn req.Len).hardErr = false := by
    rw [mergedRead_hardErr]
    exact hhard
  have hlen : (fhIn.mergedRead req.OffIn req.Len).buf.length = req.Len :=
    mergedRead_buf_length fhIn req.OffIn req.Len
  rw [copyFileRange_eq_core hp, copyCore_success_eq req fhIn fhOut eOut hh h0]
  refine ⟨by simp, hlen, ?_⟩
  simp only [Option.some_bind', Option.map_some', Option.some.injEq]
  have key : ∀ fh2 : FileHandle, fh2.chunkReadHardError = false →
      fh2.dirtyPages.pages =
        { offset := req.OffOut,
          data := (fhIn.mergedRead req.OffIn req.Len).buf } ::
          fhOut.dirtyPages.pages →
      (fh2.mergedRead req.OffOut req.Len).buf =
        (fhIn.mergedRead req.OffIn req.Len).buf := by
    intro fh2 h1 h2
    have h3 := mergedRead_head_page fh2 h1
      { offset := req.OffOut, data := (fhIn.mergedRead req.OffIn req.Len).buf }
      fhOut.dirtyPages.pages h2
    rw [hlen] at h3
    exact h3
  exact key _ hdh rfl

/-- C5 witness: the amended insertion rule instantiated on the concrete
scenario state. -/
theorem C5_witness :
    ((CopyFileRange wfsA reqA).bind (fun r => r.fhOutAfter)).map
        (fun f => f.dirtyPages.pages) =
      some ({ offset := 0, data := (srcA.mergedRead 0 10).buf } ::
        dstA.dirtyPages.pages) ∧
    (srcA.mergedRead 0 10).buf.length = 10 ∧
    ((CopyFileRange wfsA reqA).bind (fun r => r.fhOutAfter)).map
        (fun f => (f.mergedRead 0 10).buf) = some (srcA.mergedRead 0 10).buf :=
  C5_insert_full_buffer wfsA reqA srcA dstA (entryFile 10) (entryFile 0)
    (by decide) (by decide) (by decide) (by decide)

/-- C8 counterexample: the claim says that when fewer than 512 bytes were
read the sniff covers all of the copied data, but the code sniffs
data[0 : min(totalRead, 512) - 1]: in the 10-byte scenario the cached content
type is computed from only the first 9 bytes, not from the 10-byte copied
data. -/
theorem C8_sniff_counterexample :
    (srcA.mergedRead 0 10).buf = [48, 49, 50, 88, 89, 53, 54, 55, 56, 57] ∧
    (srcA.mergedRead 0 10).totalRead = 10 ∧
    reqA.OffOut = 0 ∧
    (CopyFileRange wfsA reqA).map (fun r => r.written) = some 10 ∧
    ((CopyFileRange wfsA reqA).bind (fun r => r.fhOutAfter)).map
        (fun f => f.contentType) = some [48, 49, 50, 88, 89, 53, 54, 55, 56] ∧
    [48, 49, 50, 88, 89, 53, 54, 55, 56] ≠
      DetectContentType [48, 49, 50, 88, 89, 53, 54, 55, 56, 57] := by
  refine ⟨by decide, by decide, by decide, by decide, by decide, by decide⟩

/-- C8 (amended): on every successful transferring copy the cached content
type is recomputed exactly when the truncated byte count is positive and
OffOut ≤ 512, and the sniff is computed over the first
min(totalRead, 512) - 1 bytes of the copied buffer — one byte fewer than the
available data — otherwise the cached content type is left unchanged; in
particular a write at offset 600 leaves it untouched. -/
theorem C8_sniff_rule :
    (∀ wfs req fhIn fhOut eIn eOut, Passes wfs req fhIn fhOut eIn eOut →
      fhIn.chunkReadHardError = false →
      (fhIn.mergedRead req.OffIn req.Len).totalRead ≠ 0 →
      ((CopyFileRange wfs req).bind (fun r => r.fhOutAfter)).map
          (fun f => f.contentType) =
        some (if (fhIn.mergedRead req.OffIn req.Len).totalRead % U32 > 0 ∧
            req.OffOut ≤ 512 then
          DetectContentType ((fhIn.mergedRead req.OffIn req.Len).buf.take
            (min (fhIn.mergedRead req.OffIn req.Len).totalRead 512 - 1))
        else fhOut.contentType)) ∧
    ((CopyFileRange wfsD reqD).bind (fun r => r.fhOutAfter)).map
        (fun f => f.contentType) = some [9, 9, 9] ∧
    (CopyFileRange wfsD reqD).map (fun r => (r.written, r.code)) =
      some (10, Status.OK) := by
  refine ⟨?_, by decide, by decide⟩
  intro wfs req fhIn fhOut eIn eOut hp hhard h0
  have hh : (fhIn.mergedRead req.OffIn req.Len).hardErr = false := by
    rw [mergedRead_hardErr]
    exact hhard
  rw [copyFileRange_eq_core hp, copyCore_success_eq req fhIn fhOut eOut hh h0]
  simp

/-- C8 witness: the general sniff rule instantiated on the concrete offset-0
scenario. -/
theorem C8_witness :
    ((CopyFileRange wfsA reqA).bind (fun r => r.fhOutAfter)).map
        (fun f => f.contentType) =
      some (if (srcA.mergedRead 0 10).totalRead % U32 > 0 ∧ reqA.OffOut ≤ 512 then
        DetectContentType ((srcA.mergedRead 0 10).buf.take
          (min (srcA.mergedRead 0 10).totalRead 512 - 1))
      else dstA.contentType) :=
  C8_sniff_rule.1 wfsA reqA srcA dstA (entryFile 10) (entryFile 0)
    (by decide) (by decide) (by decide)

/-- C9 counterexample: the same-handle test is not an identity check on the
handle reference but a comparison of the numeric fh ids: ids 1 and 2 resolve
to two distinct handle objects (different ref and different inode) that share
fh id 7, the source is therefore a different handle object than the
destination, yet the call never acquires the source's handle-lock. -/
theorem C9_same_fh_counterexample :
    wfsE.GetHandle 2 ≠ wfsE.GetHandle 1 ∧
    (wfsE.GetHandle 2).map (fun f => f.ref) = some 2 ∧
    (wfsE.GetHandle 1).map (fun f => f.ref) = some 1 ∧
    (CopyFileRange wfsE reqE).map (fun r => r.trace) =
      some [Event.resolve 1, Event.resolve 2, Event.lockHandle 1,
        Event.lockEntry 1, Event.lockForRead 2, Event.unlockForRead 2,
        Event.unlockEntry 1, Event.unlockHandle 1] ∧
    Event.lockHandle 2 ∉
      [Event.resolve 1, Event.resolve 2, Event.lockHandle 1,
        Event.lockEntry 1, Event.lockForRead 2, Event.unlockForRead 2,
        Event.unlockEntry 1, Event.unlockHandle 1] := by
  refine ⟨by decide, by decide, by decide, by decide, by decide⟩

/-- C9 (amended): on every exit path the releases are exactly the reverse of
the acquisitions, and the acquisitions are an initial segment of the fixed
order: destination handle-lock, destination entry-lock, then — exactly when
the two handles' numeric fh ids differ (the code's test, which coincides with
reference identity only when distinct handles carry distinct fh ids) — source
handle-lock and source entry-lock, then the source read-lock. -/
theorem C9_lock_discipline (wfs : WFS) (req : CopyIn) (r : CopyResult)
    (h : CopyFileRange wfs req = some r) :
    (unlockEvts r.trace).map unlockOf = (lockEvts r.trace).reverse ∧
    ∃ k, lockEvts r.trace = (canonLocks wfs req).take k := by
  unfold CopyFileRange at h
  split at h
  · cases h
    exact ⟨rfl, 0, rfl⟩
  · split at h
    next heqO =>
      cases h
      exact ⟨rfl, 0, by simp [lockEvts, isLockEvt]⟩
    next fhOut heqO =>
      split at h
      next heqI =>
        cases h
        exact ⟨rfl, 0, by simp [lockEvts, isLockEvt, resolveEvents]⟩
      next fhIn heqI =>
        split at h
        next heqE =>
          cases h
          constructor
          · simp [lockEvts, unlockEvts, isLockEvt, isUnlockEvt, unlockOf,
              resolveEvents, outLocks, outUnlocks]
          · refine ⟨2, ?_⟩
            by_cases hfh : fhIn.fh = fhOut.fh <;>
              simp [lockEvts, isLockEvt, resolveEvents, outLocks, outUnlocks,
                canonLocks, heqO, heqI, inLocks, hfh]
        next eOut heqE =>
          split at h
          next heqEI => cases h
          next eIn heqEI =>
            split at h
            · cases h
              constructor
              · by_cases hfh : fhIn.fh = fhOut.fh <;>
                  simp [lockEvts, unlockEvts, isLockEvt, isUnlockEvt, unlockOf,
                    resolveEvents, outLocks, outUnlocks, inLocks, inUnlocks,
                    tracePre, hfh]
              · by_cases hfh : fhIn.fh = fhOut.fh
                · refine ⟨2, ?_⟩
                  simp [lockEvts, isLockEvt, resolveEvents, outLocks, canonLocks,
                    heqO, heqI, inLocks, inUnlocks, tracePre, outUnlocks, hfh]
                · refine ⟨4, ?_⟩
                  simp [lockEvts, isLockEvt, resolveEvents, outLocks, canonLocks,
                    heqO, heqI, inLocks, inUnlocks, tracePre, outUnlocks, hfh]
            · split at h
              · cases h
                constructor
                · by_cases hfh : fhIn.fh = fhOut.fh <;>
                    simp [lockEvts, unlockEvts, isLockEvt, isUnlockEvt, unlockOf,
                      resolveEvents, outLocks, outUnlocks, inLocks, inUnlocks,
                      tracePre, hfh]
                · by_cases hfh : fhIn.fh = fhOut.fh
                  · refine ⟨2, ?_⟩
                    simp [lockEvts, isLockEvt, resolveEvents, outLocks, canonLocks,
                      heqO, heqI, inLocks, inUnlocks, tracePre, outUnlocks, hfh]
                  · refine ⟨4, ?_⟩
                    simp [lockEvts, isLockEvt, resolveEvents, outLocks, canonLocks,
                      heqO, heqI, inLocks, inUnlocks, tracePre, outUnlocks, hfh]
              · cases h
                rw [copyCore_trace]
                constructor
                · by_cases hfh : fhIn.fh = fhOut.fh <;>
                    simp [coreTrace, lockEvts, unlockEvts, isLockEvt, isUnlockEvt,
                      unlockOf, resolveEvents, outLocks, outUnlocks, inLocks,
                      inUnlocks, tracePre, hfh]
                · by_cases hfh : fhIn.fh = fhOut.fh
                  · refine ⟨3, ?_⟩
                    simp [coreTrace, lockEvts, isLockEvt, resolveEvents, outLocks,
                      outUnlocks, canonLocks, heqO, heqI, inLocks, inUnlocks,
                      tracePre, hfh]
                  · refine ⟨5, ?_⟩
                    simp [coreTrace, lockEvts, isLockEvt, resolveEvents, outLocks,
                      outUnlocks, canonLocks, heqO, heqI, inLocks, inUnlocks,
                      tracePre, hfh]

/-- C9 witness: the lock discipline instantiated at a concrete rejected
request whose trace is empty. -/
theorem C9_witness :
    (unlockEvts emptyRes.trace).map unlockOf = (lockEvts emptyRes.trace).reverse ∧
    ∃ k, lockEvts emptyRes.trace = (canonLocks wfsA reqJ).take k :=
  C9_lock_discipline wfsA reqJ emptyRes (by decide)

end SW
